import Mathlib

/-!
Verification of the `gores` microservice scaffolding CLI
(port-allocation registry and idempotent scaffolding pipeline).

The Go sources are shallowly embedded as pure Lean functions:
  * file contents are passed in explicitly (`FileRead`),
  * the OS-level port probe (`net.Listen`) is an oracle `free : Int → Bool`,
  * JSON decoding of the registry document (`json.Unmarshal`) is an oracle
    `parse : String → Option UsedPorts`,
  * filesystem side effects of a command run are returned as an explicit
    `Effect` trace.
-/

namespace Gores

/-- `PortInfo` from cmd/port_management.go: one entry of the used-ports file. -/
structure PortInfo where
  port : Int
  service : String
deriving DecidableEq, Repr

/-- The `Ports` slice of the `UsedPorts` document. -/
abbrev UsedPorts := List PortInfo

/-- Error outcomes of the embedded operations, one constructor per family of
error sites in the Go code, named after the spec's error taxonomy. -/
inductive GErr where
  /-- `used_ports.json` unreadable or its JSON failed to unmarshal. -/
  | corruptState
  /-- auto-assignment scanned past 65535 without finding a port. -/
  | portSpaceExhausted
  /-- explicit port already present in the registry. -/
  | portConflict
  /-- explicit port free in the registry but occupied at the OS level. -/
  | portUnavailable
  /-- malformed, empty, or out-of-range port argument. -/
  | invalidPort
  /-- destination service directory already present. -/
  | serviceAlreadyExists
  /-- `used_ports.json` absent: `gores init` has not been run. -/
  | notInitialized
  /-- no service-name argument supplied. -/
  | missingServiceName
  /-- embedded template resource could not be read. -/
  | templateMissing
  /-- template parse/execute failure. -/
  | templateError
deriving DecidableEq, Repr

/-- Outcome of `os.ReadFile` on one file: the file may be absent
(`os.IsNotExist`), unreadable for another reason, or have some contents. -/
inductive FileRead where
  | missing
  | unreadable
  | content (s : String)
deriving DecidableEq, Repr

/-- Outcome of `os.Stat` on one path: no error, a not-exist error, or any
other error (e.g. permission denied). -/
inductive StatResult where
  | statOk
  | notExist
  | otherError
deriving DecidableEq, Repr

/-- `os.IsNotExist err` for a modelled stat outcome. -/
def isNotExistStat (r : StatResult) : Bool :=
  r == StatResult.notExist

/-- `strconv.Atoi`: an optional sign followed by one or more decimal digits;
anything else fails. -/
def goAtoi (s : String) : Option Int :=
  let rec digitsVal (acc : Nat) : List Char → Nat
    | [] => acc
    | c :: cs => digitsVal (acc * 10 + (c.toNat - 48)) cs
  let signedDigits : Int × List Char :=
    match s.data with
    | '+' :: rest => (1, rest)
    | '-' :: rest => (-1, rest)
    | cs => (1, cs)
  if signedDigits.2.isEmpty then none
  else if signedDigits.2.all Char.isDigit then
    some (signedDigits.1 * (digitsVal 0 signedDigits.2 : Nat))
  else none

/-- `IsPortUsed` from cmd/port_management.go: membership of a port in the
used-ports slice. -/
def IsPortUsed (used : UsedPorts) (port : Int) : Bool :=
  used.any fun p => p.port == port

/-- `ReadUsedPorts` from cmd/port_management.go: a missing file yields the
empty document, any other read failure or an unmarshal failure is an error
(the spec's `CorruptState`), and otherwise the decoded document is returned.
The JSON decoder is the oracle `parse`. -/
def ReadUsedPorts (parse : String → Option UsedPorts) :
    FileRead → Except GErr UsedPorts
  | FileRead.missing => Except.ok []
  | FileRead.unreadable => Except.error GErr.corruptState
  | FileRead.content s =>
    match parse s with
    | some d => Except.ok d
    | none => Except.error GErr.corruptState

/-- The loop body of `GetNextAvailablePort`: try `fuel` consecutive candidate
ports starting at `port`; registered ports are skipped without probing,
every other candidate is probed (the returned list records the probes in
order), and the first unregistered probe-free candidate is returned. -/
def getNextAvailablePortAux (free : Int → Bool) (used : UsedPorts) :
    Nat → Int → Option Int × List Int
  | 0, _ => (none, [])
  | fuel + 1, port =>
    if IsPortUsed used port then
      getNextAvailablePortAux free used fuel (port + 1)
    else if free port then
      (some port, [port])
    else
      let r := getNextAvailablePortAux free used fuel (port + 1)
      (r.1, port :: r.2)

/-- `GetNextAvailablePort` from cmd/port_management.go: scan
`port := start; port <= 65535; port++`, skipping registered ports and
OS-occupied ports; failure when the range is exhausted. -/
def GetNextAvailablePort (free : Int → Bool) (start : Int) (used : UsedPorts) :
    Except GErr Int × List Int :=
  match getNextAvailablePortAux free used (65535 + 1 - start).toNat start with
  | (some p, ps) => (Except.ok p, ps)
  | (none, ps) => (Except.error GErr.portSpaceExhausted, ps)

/-- The in-memory core of `WriteUsedPortForService`: append the allocation
unless the port is already present; the boolean records whether
`WriteUsedPorts` was invoked. -/
def recordPort (used : UsedPorts) (port : Int) (serviceName : String) :
    UsedPorts × Bool :=
  if !IsPortUsed used port then
    (used ++ [⟨port, serviceName⟩], true)
  else
    (used, false)

/-- The cursor-defaulting step of `ReadAndIncrementPortWithUsed`: the cursor
file's contents override `start` only when they read and parse successfully
and the parsed value is at least `start`. -/
def nextStartFrom (start : Int) (nextPortFile : FileRead) : Int :=
  match nextPortFile with
  | FileRead.content s =>
    match goAtoi s with
    | some p => if p ≥ start then p else start
    | none => start
  | _ => start

/-- `ReadAndIncrementPortWithUsed` from cmd/port_management.go: read the
cursor (falling back to `start`), load the registry, scan for the next
available port, append the new allocation, and persist registry and cursor
(`port + 1`). The result carries the value returned, the registry contents
written back, and the cursor contents written back; the `List Int` records
the ports probed. -/
def ReadAndIncrementPortWithUsed (parse : String → Option UsedPorts)
    (free : Int → Bool) (start : Int) (serviceName : String)
    (nextPortFile usedPortsFile : FileRead) :
    Except GErr (Int × UsedPorts × String) × List Int :=
  let nextPort := nextStartFrom start nextPortFile
  match ReadUsedPorts parse usedPortsFile with
  | Except.error e => (Except.error e, [])
  | Except.ok usedPorts =>
    match GetNextAvailablePort free nextPort usedPorts with
    | (Except.error e, ps) => (Except.error e, ps)
    | (Except.ok port, ps) =>
      (Except.ok (port, usedPorts ++ [⟨port, serviceName⟩],
        toString (port + 1)), ps)

/-- `WriteUsedPortForService` from cmd/port_management.go: re-read the
registry, and append-and-persist only when the port is not yet present.
The result carries the registry contents after the call and whether a write
to the backing store occurred. -/
def WriteUsedPortForService (parse : String → Option UsedPorts) (port : Int)
    (serviceName : String) (usedPortsFile : FileRead) :
    Except GErr (UsedPorts × Bool) :=
  match ReadUsedPorts parse usedPortsFile with
  | Except.error e => Except.error e
  | Except.ok usedPorts => Except.ok (recordPort usedPorts port serviceName)

/-- `ServiceExists` from cmd/port_management.go: stat the destination path and
report existence as "the stat error is not a not-exist error"
(`!os.IsNotExist(err)`). -/
def ServiceExists (stat : StatResult) : Bool :=
  !(isNotExistStat stat)

/-- One observable side effect of a `gores generate` run. -/
inductive Effect where
  /-- `os.Stat` of `used_ports.json` (the init-prerequisite check). -/
  | statUsedPortsFile
  /-- `os.Stat` of `services/<name>`. -/
  | statServiceDir (name : String)
  /-- `os.ReadFile` of `used_ports.json`. -/
  | readUsedPortsFile
  /-- `os.ReadFile` of `next_available_port.txt`. -/
  | readCursorFile
  /-- one `net.Listen` probe of a candidate port. -/
  | probe (port : Int)
  /-- `WriteUsedPorts`: the registry document written back. -/
  | writeUsedPortsFile (data : UsedPorts)
  /-- the cursor file written back. -/
  | writeCursorFile (s : String)
  /-- `createMicroservice`: scaffolding of the per-service tree. -/
  | scaffold (service : String) (port : Int)
deriving DecidableEq, Repr

/-- The durable state a `gores generate` run reads: the stat outcome of the
requested service's destination directory, and the contents of the two
backing files. -/
structure GoresState where
  serviceStat : StatResult
  usedPortsFile : FileRead
  cursorFile : FileRead
deriving DecidableEq, Repr

/-- `checkInitPrerequisite`: `gores generate` refuses to run before
`used_ports.json` exists. -/
def checkInitPrerequisite (st : GoresState) : Except GErr Unit :=
  match st.usedPortsFile with
  | FileRead.missing => Except.error GErr.notInitialized
  | _ => Except.ok ()

/-- The cobra `Args` validator of `generateCmd`: a service name is required,
and an optional second argument must be a non-empty decimal number in
[1024, 65535]. -/
def generateArgsCheck (args : List String) : Except GErr Unit :=
  match args with
  | [] => Except.error GErr.missingServiceName
  | [_] => Except.ok ()
  | _ :: portStr :: _ =>
    if portStr.length == 0 then Except.error GErr.invalidPort
    else
      match goAtoi portStr with
      | none => Except.error GErr.invalidPort
      | some p =>
        if p < 1024 || p > 65535 then Except.error GErr.invalidPort
        else Except.ok ()

/-- The explicit-port branch of `generateCmd.RunE`: registry membership is
checked first (`PortConflict`), then the single candidate is probed
(`PortUnavailable` when occupied), and only then is the allocation recorded
via `WriteUsedPortForService` and scaffolding run. -/
def generateExplicit (parse : String → Option UsedPorts) (free : Int → Bool)
    (st : GoresState) (serviceName : String) (port : Int)
    (preTrace : List Effect) : Except GErr Int × List Effect :=
  match ReadUsedPorts parse st.usedPortsFile with
  | Except.error e => (Except.error e, preTrace ++ [Effect.readUsedPortsFile])
  | Except.ok usedPorts =>
    if IsPortUsed usedPorts port then
      (Except.error GErr.portConflict, preTrace ++ [Effect.readUsedPortsFile])
    else if free port then
      match ReadUsedPorts parse st.usedPortsFile with
      | Except.error e =>
        (Except.error e, preTrace ++
          [Effect.readUsedPortsFile, Effect.probe port,
            Effect.readUsedPortsFile])
      | Except.ok used2 =>
        let rec2 := recordPort used2 port serviceName
        (Except.ok port, preTrace ++
          [Effect.readUsedPortsFile, Effect.probe port,
            Effect.readUsedPortsFile] ++
          (if rec2.2 then [Effect.writeUsedPortsFile rec2.1] else []) ++
          [Effect.scaffold serviceName port])
    else
      (Except.error GErr.portUnavailable, preTrace ++
        [Effect.readUsedPortsFile, Effect.probe port])

/-- The auto-assignment branch of `generateCmd.RunE`: delegate to
`ReadAndIncrementPortWithUsed` with floor 8080 and scaffold on success. -/
def generateAuto (parse : String → Option UsedPorts) (free : Int → Bool)
    (st : GoresState) (serviceName : String) (preTrace : List Effect) :
    Except GErr Int × List Effect :=
  match ReadAndIncrementPortWithUsed parse free 8080 serviceName
      st.cursorFile st.usedPortsFile with
  | (Except.error e, ps) =>
    (Except.error e, preTrace ++
      [Effect.readCursorFile, Effect.readUsedPortsFile] ++ ps.map Effect.probe)
  | (Except.ok (port, used2, cur), ps) =>
    (Except.ok port, preTrace ++
      [Effect.readCursorFile, Effect.readUsedPortsFile] ++
      ps.map Effect.probe ++
      [Effect.writeUsedPortsFile used2, Effect.writeCursorFile cur,
        Effect.scaffold serviceName port])

/-- `generateCmd.RunE`: prerequisite check, destination-existence check, then
the explicit-port or auto-assignment branch. -/
def generateRunE (parse : String → Option UsedPorts) (free : Int → Bool)
    (st : GoresState) (args : List String) : Except GErr Int × List Effect :=
  match args with
  | [] => (Except.error GErr.missingServiceName, [])
  | serviceName :: rest =>
    match checkInitPrerequisite st with
    | Except.error e => (Except.error e, [Effect.statUsedPortsFile])
    | Except.ok _ =>
      if !(isNotExistStat st.serviceStat) then
        (Except.error GErr.serviceAlreadyExists,
          [Effect.statUsedPortsFile, Effect.statServiceDir serviceName])
      else
        let preTrace :=
          [Effect.statUsedPortsFile, Effect.statServiceDir serviceName]
        match rest with
        | portStr :: _ =>
          if portStr ≠ "" then
            match goAtoi portStr with
            | none => (Except.error GErr.invalidPort, preTrace)
            | some port =>
              generateExplicit parse free st serviceName port preTrace
          else generateAuto parse free st serviceName preTrace
        | [] => generateAuto parse free st serviceName preTrace

/-- The whole `gores generate` command: cobra rejects the arguments before
`RunE` runs, so a validation failure performs no filesystem access at all. -/
def generateCommand (parse : String → Option UsedPorts) (free : Int → Bool)
    (st : GoresState) (args : List String) : Except GErr Int × List Effect :=
  match generateArgsCheck args with
  | Except.error e => (Except.error e, [])
  | Except.ok _ => generateRunE parse free st args

/-! ## Shared-package initializer (`createSharedPkg`, cmd/service_generation.go)

The filesystem is modelled at the existence level as the list of paths that
exist; `templatesFS.ReadFile` is the oracle `tstore` and the parse-execute
pipeline of `text/template` is the oracle `render` (`none` = failure). -/

/-- A guarded create (`os.Stat` + `os.Mkdir`/`os.MkdirAll`/`os.WriteFile`
when absent), which is also the behaviour of an unconditional `os.MkdirAll`:
the path is created only when it does not already exist. -/
def ensurePath (p : String) (fs : List String) : List String :=
  if fs.contains p then fs else p :: fs

/-- A guarded template-rendered file: when the destination is absent, read
the template resource `key`, render it, and create the destination; either
pipeline stage may fail. -/
def ensureRenderedFile (tstore render : String → Option String)
    (key dest : String) (fs : List String) : Except GErr (List String) :=
  if fs.contains dest then Except.ok fs
  else
    match tstore key with
    | none => Except.error GErr.templateMissing
    | some c =>
      match render c with
      | none => Except.error GErr.templateError
      | some _ => Except.ok (dest :: fs)

/-- `createSharedPkg` from cmd/service_generation.go: ensure, in order, the
`pkg` root, `pkg/go.mod`, `pkg/go.sum`, the entities root, the database
folder (plus its unconditional `postgres` `MkdirAll`), the rendered database
connection stub, the http folder (plus its unconditional `middleware`
`MkdirAll`), and the rendered middleware stub. -/
def createSharedPkg (tstore render : String → Option String)
    (fs0 : List String) : Except GErr (List String) :=
  let fs1 := ensurePath "pkg" fs0
  let fs2 := ensurePath "pkg/go.mod" fs1
  let fs3 := ensurePath "pkg/go.sum" fs2
  let fs4 := ensurePath "pkg/entities" fs3
  let fs5 := ensurePath "pkg/database" fs4
  let fs6 := ensurePath "pkg/database/postgres" fs5
  match ensureRenderedFile tstore render "templates/database_connection.tmpl"
      "pkg/database/postgres/connection.go" fs6 with
  | Except.error e => Except.error e
  | Except.ok fs7 =>
    let fs8 := ensurePath "pkg/http" fs7
    let fs9 := ensurePath "pkg/http/middleware" fs8
    ensureRenderedFile tstore render "templates/middleware.tmpl"
      "pkg/http/middleware/middleware.go" fs9

/-! ## Reachable registry states -/

/-- Registry contents reachable from the empty registry through the two
recording operations: the in-memory step of `WriteUsedPortForService`
(explicit recording, any port and service), and a successful
`ReadAndIncrementPortWithUsed` whose registry read yielded the current
contents (auto-assignment, any probe oracle, cursor state and floor). -/
inductive ReachableRegistry : UsedPorts → Prop where
  | empty : ReachableRegistry []
  | explicitRecord (u : UsedPorts) (p : Int) (s : String) :
      ReachableRegistry u → ReachableRegistry (recordPort u p s).1
  | autoAssign (parse : String → Option UsedPorts) (free : Int → Bool)
      (start : Int) (svc : String) (nf uf : FileRead) (u u2 : UsedPorts)
      (port : Int) (cur : String) (ps : List Int) :
      ReachableRegistry u →
      ReadUsedPorts parse uf = Except.ok u →
      ReadAndIncrementPortWithUsed parse free start svc nf uf =
        (Except.ok (port, u2, cur), ps) →
      ReachableRegistry u2

/-! ## Helper lemmas -/

theorem isPortUsed_eq_false_iff (u : UsedPorts) (p : Int) :
    IsPortUsed u p = false ↔ p ∉ u.map PortInfo.port := by
  rw [← Bool.not_eq_true]
  simp [IsPortUsed, List.any_eq_true, List.mem_map]

theorem isPortUsed_eq_true_of_mem (u : UsedPorts) (p : Int)
    (h : p ∈ u.map PortInfo.port) : IsPortUsed u p = true := by
  by_contra hc
  rw [Bool.not_eq_true, isPortUsed_eq_false_iff] at hc
  exact hc h

theorem nodup_append_record (u : UsedPorts) (p : Int) (s : String)
    (hn : (u.map PortInfo.port).Nodup) (hp : IsPortUsed u p = false) :
    ((u ++ [PortInfo.mk p s]).map PortInfo.port).Nodup := by
  rw [List.map_append, List.nodup_append]
  refine ⟨hn, List.nodup_singleton _, ?_⟩
  intro q hq hq2
  simp [List.map_singleton] at hq2
  rw [hq2] at hq
  exact (isPortUsed_eq_false_iff u p).mp hp hq

theorem getNextAvailablePortAux_some (free : Int → Bool) (used : UsedPorts) :
    ∀ (fuel : Nat) (port p : Int) (ps : List Int),
      getNextAvailablePortAux free used fuel port = (some p, ps) →
      port ≤ p ∧ p < port + fuel ∧ IsPortUsed used p = false ∧
        free p = true ∧
        ∀ q, port ≤ q → q < p → IsPortUsed used q = true ∨ free q = false := by
  intro fuel
  induction fuel with
  | zero =>
    intro port p ps h
    simp [getNextAvailablePortAux] at h
  | succ n ih =>
    intro port p ps h
    rw [getNextAvailablePortAux] at h
    by_cases hu : IsPortUsed used port
    · rw [if_pos hu] at h
      obtain ⟨h1, h2, h3, h4, h5⟩ := ih (port + 1) p ps h
      refine ⟨by omega, by omega, h3, h4, ?_⟩
      intro q hq1 hq2
      by_cases hqp : q = port
      · rw [hqp]; exact Or.inl hu
      · exact h5 q (by omega) hq2
    · rw [if_neg hu] at h
      by_cases hf : free port
      · rw [if_pos hf] at h
        simp only [Prod.mk.injEq, Option.some.injEq] at h
        obtain ⟨hp, hps⟩ := h
        rw [← hp]
        refine ⟨le_refl _, by omega, by simpa using hu, hf, ?_⟩
        intro q hq1 hq2
        omega
      · rw [if_neg hf] at h
        simp only at h
        rcases hr : getNextAvailablePortAux free used n (port + 1) with ⟨o, l⟩
        rw [hr] at h
        simp only [Prod.mk.injEq] at h
        obtain ⟨ho, hl⟩ := h
        obtain ⟨h1, h2, h3, h4, h5⟩ := ih (port + 1) p l (by rw [hr, ho])
        refine ⟨by omega, by omega, h3, h4, ?_⟩
        intro q hq1 hq2
        by_cases hqp : q = port
        · rw [hqp]; exact Or.inr (by simpa using hf)
        · exact h5 q (by omega) hq2

theorem getNextAvailablePortAux_none (free : Int → Bool) (used : UsedPorts) :
    ∀ (fuel : Nat) (port : Int),
      (∀ q, port ≤ q → q < port + fuel →
        IsPortUsed used q = true ∨ free q = false) →
      (getNextAvailablePortAux free used fuel port).1 = none := by
  intro fuel
  induction fuel with
  | zero =>
    intro port _
    simp [getNextAvailablePortAux]
  | succ n ih =>
    intro port hall
    rw [getNextAvailablePortAux]
    by_cases hu : IsPortUsed used port
    · rw [if_pos hu]
      exact ih (port + 1) fun q h1 h2 => hall q (by omega) (by omega)
    · rw [if_neg hu]
      rcases hall port (le_refl _) (by omega) with h | h
      · exact absurd h hu
      · rw [if_neg (by simp [h])]
        exact ih (port + 1) fun q h1 h2 => hall q (by omega) (by omega)

theorem getNextAvailablePort_ok (free : Int → Bool) (used : UsedPorts)
    (start p : Int) (ps : List Int)
    (h : GetNextAvailablePort free start used = (Except.ok p, ps)) :
    start ≤ p ∧ p ≤ 65535 ∧ IsPortUsed used p = false ∧ free p = true ∧
      ∀ q, start ≤ q → q < p → IsPortUsed used q = true ∨ free q = false := by
  rw [GetNextAvailablePort] at h
  rcases hr : getNextAvailablePortAux free used (65535 + 1 - start).toNat
      start with ⟨o, l⟩
  rw [hr] at h
  cases o with
  | none => simp at h
  | some p0 =>
    simp only [Prod.mk.injEq, Except.ok.injEq] at h
    obtain ⟨hp, hl⟩ := h
    rw [hp] at hr
    obtain ⟨h1, h2, h3, h4, h5⟩ :=
      getNextAvailablePortAux_some free used _ start p l hr
    refine ⟨h1, ?_, h3, h4, h5⟩
    have htn : ((65535 + 1 - start).toNat : Int) ≤ 65535 + 1 - start ∨
        (65535 + 1 - start).toNat = 0 := by
      rcases le_or_lt start (65535 + 1) with hls | hls
      · left; rw [Int.toNat_of_nonneg (by omega)]
      · right; rw [Int.toNat_eq_zero]; omega
    rcases htn with htn | htn
    · omega
    · rw [htn] at h2; omega

theorem getNextAvailablePort_exhausted (free : Int → Bool) (used : UsedPorts)
    (start : Int)
    (h : ∀ q, start ≤ q → q ≤ 65535 →
      IsPortUsed used q = true ∨ free q = false) :
    (GetNextAvailablePort free start used).1 =
      Except.error GErr.portSpaceExhausted := by
  rw [GetNextAvailablePort]
  have hn : (getNextAvailablePortAux free used (65535 + 1 - start).toNat
      start).1 = none := by
    apply getNextAvailablePortAux_none
    intro q h1 h2
    apply h q h1
    have ht : ((65535 + 1 - start).toNat : Int) ≤ 65535 + 1 - start ∨
        (65535 + 1 - start).toNat = 0 := by
      rcases le_or_lt start (65535 + 1) with hls | hls
      · left; rw [Int.toNat_of_nonneg (by omega)]
      · right; rw [Int.toNat_eq_zero]; omega
    rcases ht with ht | ht
    · omega
    · rw [ht] at h2; omega
  rcases hr : getNextAvailablePortAux free used (65535 + 1 - start).toNat
      start with ⟨o, l⟩
  rw [hr] at hn
  simp only at hn
  rw [hn]

theorem nextStartFrom_ge (start : Int) (nf : FileRead) :
    start ≤ nextStartFrom start nf := by
  unfold nextStartFrom
  split
  · split
    · split
      · omega
      · omega
    · omega
  · omega

theorem readAndIncrement_ok_shape (parse : String → Option UsedPorts)
    (free : Int → Bool) (start : Int) (svc : String) (nf uf : FileRead)
    (u u2 : UsedPorts) (port : Int) (cur : String) (ps : List Int)
    (hread : ReadUsedPorts parse uf = Except.ok u)
    (hok : ReadAndIncrementPortWithUsed parse free start svc nf uf =
      (Except.ok (port, u2, cur), ps)) :
    GetNextAvailablePort free (nextStartFrom start nf) u =
        (Except.ok port, ps) ∧
      u2 = u ++ [PortInfo.mk port svc] ∧ cur = toString (port + 1) := by
  rw [ReadAndIncrementPortWithUsed] at hok
  rw [hread] at hok
  simp only at hok
  rcases hg : GetNextAvailablePort free (nextStartFrom start nf) u
      with ⟨r, l⟩
  rw [hg] at hok
  cases r with
  | error e => simp at hok
  | ok p0 =>
    simp only [Prod.mk.injEq, Except.ok.injEq] at hok
    obtain ⟨⟨hp, hu2, hcur⟩, hl⟩ := hok
    subst hp
    subst hl
    exact ⟨rfl, hu2.symm, hcur.symm⟩

theorem readAndIncrement_error_of_read_error (parse : String → Option UsedPorts)
    (free : Int → Bool) (start : Int) (svc : String) (nf uf : FileRead)
    (e : GErr) (hread : ReadUsedPorts parse uf = Except.error e) :
    ReadAndIncrementPortWithUsed parse free start svc nf uf =
      (Except.error e, []) := by
  rw [ReadAndIncrementPortWithUsed]
  rw [hread]

/-! ## Claim theorems -/

/-- C1: every registry state reachable from the empty registry through the
recording operations (explicit recording and auto-assignment) contains at
most one allocation per port number; the second conjunct exhibits a
reachable registry whose two allocations share one service name, so service
names may repeat across allocations. -/
theorem reachable_registry_at_most_one_allocation_per_port (u : UsedPorts)
    (h : ReachableRegistry u) :
    (u.map PortInfo.port).Nodup ∧
      ReachableRegistry [PortInfo.mk 1024 "svc", PortInfo.mk 1025 "svc"] := by
  constructor
  · induction h with
    | empty => simp
    | explicitRecord u0 p s hu ih =>
      rw [recordPort]
      by_cases hp : IsPortUsed u0 p
      · rw [if_neg (by simp [hp])]
        exact ih
      · rw [if_pos (by simp [hp])]
        exact nodup_append_record u0 p s ih (by simpa using hp)
    | autoAssign parse free start svc nf uf u0 u2 port cur ps hu hread hok ih =>
      obtain ⟨hg, hu2, hcur⟩ :=
        readAndIncrement_ok_shape parse free start svc nf uf u0 u2 port cur ps
          hread hok
      obtain ⟨h1, h2, h3, h4, h5⟩ :=
        getNextAvailablePort_ok free u0 (nextStartFrom start nf) port ps hg
      rw [hu2]
      exact nodup_append_record u0 port svc ih h3
  · have h1 : ReachableRegistry ((recordPort [] 1024 "svc").1) :=
      ReachableRegistry.explicitRecord [] 1024 "svc" ReachableRegistry.empty
    have h2 : ReachableRegistry
        ((recordPort (recordPort [] 1024 "svc").1 1025 "svc").1) :=
      ReachableRegistry.explicitRecord _ 1025 "svc" h1
    have he : (recordPort (recordPort [] 1024 "svc").1 1025 "svc").1 =
        [PortInfo.mk 1024 "svc", PortInfo.mk 1025 "svc"] := by decide
    exact he ▸ h2

theorem reachable_registry_at_most_one_allocation_per_port_witness :
    (([] : UsedPorts).map PortInfo.port).Nodup ∧
      ReachableRegistry [PortInfo.mk 1024 "svc", PortInfo.mk 1025 "svc"] :=
  reachable_registry_at_most_one_allocation_per_port []
    ReachableRegistry.empty

/-- C3: recording is idempotent by port: whenever port `p` occurs in the
registry, `IsPortUsed` answers true, the record step returns the registry
unchanged with no write to the backing store, and the full
`WriteUsedPortForService` succeeds while leaving the loaded registry as it
was and performing no write. -/
theorem record_idempotent_by_port (u : UsedPorts) (p : Int) (s : String)
    (h : p ∈ u.map PortInfo.port) :
    IsPortUsed u p = true ∧ recordPort u p s = (u, false) ∧
      ∀ (parse : String → Option UsedPorts) (uf : FileRead),
        ReadUsedPorts parse uf = Except.ok u →
        WriteUsedPortForService parse p s uf = Except.ok (u, false) := by
  have ht := isPortUsed_eq_true_of_mem u p h
  have hr : recordPort u p s = (u, false) := by
    rw [recordPort, ht]
    simp
  refine ⟨ht, hr, ?_⟩
  intro parse uf hread
  rw [WriteUsedPortForService]
  rw [hread]
  simp only
  rw [hr]

theorem record_idempotent_by_port_witness :
    IsPortUsed [PortInfo.mk 8080 "svc-a"] 8080 = true ∧
      recordPort [PortInfo.mk 8080 "svc-a"] 8080 "svc-b" =
        ([PortInfo.mk 8080 "svc-a"], false) := by
  have h := record_idempotent_by_port [PortInfo.mk 8080 "svc-a"] 8080 "svc-b"
    (by decide)
  exact ⟨h.1, h.2.1⟩

/-- C6: loading the registry from a missing backing store yields the empty
registry rather than an error, and loading contents the JSON decoder cannot
parse fails with `CorruptState` without producing a registry. -/
theorem load_registry_missing_empty_and_corrupt
    (parse : String → Option UsedPorts) (s : String) (h : parse s = none) :
    ReadUsedPorts parse FileRead.missing = Except.ok [] ∧
      ReadUsedPorts parse (FileRead.content s) =
        Except.error GErr.corruptState := by
  refine ⟨rfl, ?_⟩
  simp [ReadUsedPorts, h]

theorem load_registry_missing_empty_and_corrupt_witness :
    ReadUsedPorts (fun _ => none) FileRead.missing = Except.ok [] ∧
      ReadUsedPorts (fun _ => none) (FileRead.content "garbage") =
        Except.error GErr.corruptState :=
  load_registry_missing_empty_and_corrupt (fun _ => none) "garbage" rfl

/-- C7 counterexample: the cursor file exists but holds contents that do not
parse as an integer, yet the auto-assignment invocation succeeds (returning
port 8080) instead of failing with a `CorruptState` error. -/
theorem cursor_unparseable_no_corrupt_state_counterexample :
    goAtoi "garbage" = none ∧
      ReadAndIncrementPortWithUsed (fun _ => none) (fun _ => true) 8080 "svc"
          (FileRead.content "garbage") FileRead.missing =
        (Except.ok (8080, [PortInfo.mk 8080 "svc"], "8081"), [8080]) ∧
      (ReadAndIncrementPortWithUsed (fun _ => none) (fun _ => true) 8080 "svc"
          (FileRead.content "garbage") FileRead.missing).1 ≠
        Except.error GErr.corruptState := by
  have he : ReadAndIncrementPortWithUsed (fun _ => none) (fun _ => true) 8080
      "svc" (FileRead.content "garbage") FileRead.missing =
      (Except.ok (8080, [PortInfo.mk 8080 "svc"], "8081"), [8080]) := rfl
  refine ⟨by decide, he, ?_⟩
  rw [he]
  simp

/-- C7 amended: a cursor file that is unreadable, or whose contents do not
parse as an integer, is silently ignored: the invocation behaves exactly as
when the cursor file is absent (the scan starts from the floor), rather
than failing with `CorruptState`. -/
theorem cursor_unparseable_ignored (parse : String → Option UsedPorts)
    (free : Int → Bool) (start : Int) (svc : String) (uf : FileRead)
    (s : String) (h : goAtoi s = none) :
    ReadAndIncrementPortWithUsed parse free start svc
        (FileRead.content s) uf =
      ReadAndIncrementPortWithUsed parse free start svc FileRead.missing uf ∧
    ReadAndIncrementPortWithUsed parse free start svc
        FileRead.unreadable uf =
      ReadAndIncrementPortWithUsed parse free start svc FileRead.missing uf := by
  have hn : nextStartFrom start (FileRead.content s) =
      nextStartFrom start FileRead.missing := by
    simp [nextStartFrom, h]
  constructor
  · rw [ReadAndIncrementPortWithUsed, ReadAndIncrementPortWithUsed, hn]
  · rfl

theorem cursor_unparseable_ignored_witness :
    goAtoi "garbage" = none ∧
      ReadAndIncrementPortWithUsed (fun _ => none) (fun _ => false) 8080 "svc"
          (FileRead.content "garbage") FileRead.missing =
        ReadAndIncrementPortWithUsed (fun _ => none) (fun _ => false) 8080
          "svc" FileRead.missing FileRead.missing :=
  ⟨by decide,
    (cursor_unparseable_ignored (fun _ => none) (fun _ => false) 8080 "svc"
      FileRead.missing "garbage" (by decide)).1⟩

/-- C2: auto-assignment with floor 8080 starts scanning from
`max(NextPortCursor, 8080)` (a cursor below the floor or unparseable is
ignored), advances one integer at a time up to 65535 skipping every
registered candidate and probing the rest, selects the first candidate both
unregistered and probe-free, records it with the service name, and persists
the cursor as `selected + 1`; the returned port is never already registered
and never below 8080, and an exhausted range fails with
`PortSpaceExhausted`. -/
theorem auto_assignment_spec (parse : String → Option UsedPorts)
    (free : Int → Bool) (svc : String) (nf uf : FileRead) (u : UsedPorts)
    (hread : ReadUsedPorts parse uf = Except.ok u) :
    (∀ (port : Int) (u2 : UsedPorts) (cur : String) (ps : List Int),
      ReadAndIncrementPortWithUsed parse free 8080 svc nf uf =
        (Except.ok (port, u2, cur), ps) →
      nextStartFrom 8080 nf ≤ port ∧ 8080 ≤ port ∧ port ≤ 65535 ∧
        IsPortUsed u port = false ∧ free port = true ∧
        (∀ q, nextStartFrom 8080 nf ≤ q → q < port →
          IsPortUsed u q = true ∨ free q = false) ∧
        u2 = u ++ [PortInfo.mk port svc] ∧ cur = toString (port + 1)) ∧
    ((∀ q, nextStartFrom 8080 nf ≤ q → q ≤ 65535 →
        IsPortUsed u q = true ∨ free q = false) →
      (ReadAndIncrementPortWithUsed parse free 8080 svc nf uf).1 =
        Except.error GErr.portSpaceExhausted) ∧
    (∀ (s : String) (p : Int), nf = FileRead.content s → goAtoi s = some p →
      nextStartFrom 8080 nf = max p 8080) ∧
    (∀ s : String, nf = FileRead.content s → goAtoi s = none →
      nextStartFrom 8080 nf = 8080) ∧
    (nf = FileRead.missing ∨ nf = FileRead.unreadable →
      nextStartFrom 8080 nf = 8080) := by
  refine ⟨?_, ?_, ?_, ?_, ?_⟩
  · intro port u2 cur ps hok
    obtain ⟨hg, hu2, hcur⟩ :=
      readAndIncrement_ok_shape parse free 8080 svc nf uf u u2 port cur ps
        hread hok
    obtain ⟨h1, h2, h3, h4, h5⟩ :=
      getNextAvailablePort_ok free u (nextStartFrom 8080 nf) port ps hg
    have hge : (8080 : Int) ≤ nextStartFrom 8080 nf := nextStartFrom_ge 8080 nf
    exact ⟨h1, by omega, h2, h3, h4, h5, hu2, hcur⟩
  · intro hall
    have hex := getNextAvailablePort_exhausted free u
      (nextStartFrom 8080 nf) hall
    rcases hg : GetNextAvailablePort free (nextStartFrom 8080 nf) u
      with ⟨r, l⟩
    rw [hg] at hex
    simp only at hex
    subst hex
    rw [ReadAndIncrementPortWithUsed]
    rw [hread]
    simp only
    rw [hg]
  · intro s p hnf hp
    subst hnf
    simp [nextStartFrom, hp]
    omega
  · intro s hnf hp
    subst hnf
    simp [nextStartFrom, hp]
  · intro hnf
    rcases hnf with hnf | hnf <;> subst hnf <;> rfl

theorem auto_assignment_spec_witness :
    ReadAndIncrementPortWithUsed (fun _ => none) (fun _ => true) 8080 "svc-a"
        FileRead.missing FileRead.missing =
      (Except.ok (8080, [PortInfo.mk 8080 "svc-a"], "8081"), [8080]) ∧
      IsPortUsed [] 8080 = false ∧ (8080 : Int) ≤ 65535 := by
  have h := auto_assignment_spec (fun _ => none) (fun _ => true) "svc-a"
    FileRead.missing FileRead.missing [] rfl
  have h2 := h.1 8080 [PortInfo.mk 8080 "svc-a"] "8081" [8080] rfl
  exact ⟨rfl, h2.2.2.2.1, by omega⟩

/-! ## Helper lemmas about the generate command -/

theorem goAtoi_empty_eq_none : goAtoi "" = none := rfl

theorem ne_empty_of_goAtoi_some (s : String) (p : Int)
    (hp : goAtoi s = some p) : s ≠ "" := by
  intro hc
  rw [hc, goAtoi_empty_eq_none] at hp
  exact Option.noConfusion hp

theorem length_beq_zero_false_of_goAtoi_some (s : String) (p : Int)
    (hp : goAtoi s = some p) : (s.length == 0) = false := by
  by_contra hc
  rw [Bool.not_eq_false, beq_iff_eq] at hc
  have hs : s = "" := by
    rcases s with ⟨data⟩
    cases data with
    | nil => rfl
    | cons c cs => simp [String.length] at hc
  exact ne_empty_of_goAtoi_some s p hp hs

theorem checkInitPrerequisite_ok (st : GoresState)
    (h : st.usedPortsFile ≠ FileRead.missing) :
    checkInitPrerequisite st = Except.ok () := by
  rw [checkInitPrerequisite]
  cases hm : st.usedPortsFile with
  | missing => exact absurd hm h
  | unreadable => rfl
  | content s => rfl

theorem generateArgsCheck_ok_of_in_range (name portStr : String)
    (rest : List String) (p : Int) (hp : goAtoi portStr = some p)
    (hlo : 1024 ≤ p) (hhi : p ≤ 65535) :
    generateArgsCheck (name :: portStr :: rest) = Except.ok () := by
  rw [generateArgsCheck]
  rw [length_beq_zero_false_of_goAtoi_some portStr p hp]
  simp only [Bool.false_eq_true, if_false]
  rw [hp]
  simp only
  have hc : (decide (p < 1024) || decide (p > 65535)) = false := by
    simp
    omega
  rw [hc]
  simp

theorem generateCommand_service_exists (parse : String → Option UsedPorts)
    (free : Int → Bool) (st : GoresState) (name : String)
    (rest : List String)
    (hargs : generateArgsCheck (name :: rest) = Except.ok ())
    (hinit : st.usedPortsFile ≠ FileRead.missing)
    (hsvc : isNotExistStat st.serviceStat = false) :
    generateCommand parse free st (name :: rest) =
      (Except.error GErr.serviceAlreadyExists,
        [Effect.statUsedPortsFile, Effect.statServiceDir name]) := by
  rw [generateCommand, hargs]
  simp only
  rw [generateRunE]
  rw [checkInitPrerequisite_ok st hinit]
  simp only
  rw [hsvc]
  simp

theorem generateCommand_explicit_eq (parse : String → Option UsedPorts)
    (free : Int → Bool) (st : GoresState) (name portStr : String) (p : Int)
    (hp : goAtoi portStr = some p) (hlo : 1024 ≤ p) (hhi : p ≤ 65535)
    (hinit : st.usedPortsFile ≠ FileRead.missing)
    (hsvc : isNotExistStat st.serviceStat = true) :
    generateCommand parse free st [name, portStr] =
      generateExplicit parse free st name p
        [Effect.statUsedPortsFile, Effect.statServiceDir name] := by
  rw [generateCommand,
    generateArgsCheck_ok_of_in_range name portStr [] p hp hlo hhi]
  simp only
  rw [generateRunE]
  rw [checkInitPrerequisite_ok st hinit]
  simp only
  rw [hsvc]
  simp only [Bool.not_true, Bool.false_eq_true, if_false]
  rw [if_pos (ne_empty_of_goAtoi_some portStr p hp)]
  rw [hp]

/-- C4: in explicit-port mode, a port already present in the registry fails
with `PortConflict` — the trace shows the registry was not written and the
port was never probed (the membership test precedes the probe); an
unregistered, OS-occupied port fails with `PortUnavailable`; an
unregistered free port is recorded and generation proceeds; and every probe
in this mode is of the requested port itself, so no forward scanning
occurs. -/
theorem explicit_port_request_spec (parse : String → Option UsedPorts)
    (free : Int → Bool) (st : GoresState) (name portStr : String) (p : Int)
    (u : UsedPorts) (hp : goAtoi portStr = some p)
    (hlo : 1024 ≤ p) (hhi : p ≤ 65535)
    (hinit : st.usedPortsFile ≠ FileRead.missing)
    (hsvc : isNotExistStat st.serviceStat = true)
    (hread : ReadUsedPorts parse st.usedPortsFile = Except.ok u) :
    (IsPortUsed u p = true →
      generateCommand parse free st [name, portStr] =
        (Except.error GErr.portConflict,
          [Effect.statUsedPortsFile, Effect.statServiceDir name,
            Effect.readUsedPortsFile])) ∧
    (IsPortUsed u p = false → free p = false →
      generateCommand parse free st [name, portStr] =
        (Except.error GErr.portUnavailable,
          [Effect.statUsedPortsFile, Effect.statServiceDir name,
            Effect.readUsedPortsFile, Effect.probe p])) ∧
    (IsPortUsed u p = false → free p = true →
      generateCommand parse free st [name, portStr] =
        (Except.ok p,
          [Effect.statUsedPortsFile, Effect.statServiceDir name,
            Effect.readUsedPortsFile, Effect.probe p,
            Effect.readUsedPortsFile,
            Effect.writeUsedPortsFile (u ++ [PortInfo.mk p name]),
            Effect.scaffold name p])) ∧
    (∀ q : Int,
      Effect.probe q ∈ (generateCommand parse free st [name, portStr]).2 →
      q = p) := by
  have hcmd := generateCommand_explicit_eq parse free st name portStr p hp
    hlo hhi hinit hsvc
  have hconf : IsPortUsed u p = true →
      generateCommand parse free st [name, portStr] =
        (Except.error GErr.portConflict,
          [Effect.statUsedPortsFile, Effect.statServiceDir name,
            Effect.readUsedPortsFile]) := by
    intro hu
    rw [hcmd, generateExplicit, hread]
    simp only
    rw [hu]
    simp
  have hunav : IsPortUsed u p = false → free p = false →
      generateCommand parse free st [name, portStr] =
        (Except.error GErr.portUnavailable,
          [Effect.statUsedPortsFile, Effect.statServiceDir name,
            Effect.readUsedPortsFile, Effect.probe p]) := by
    intro hu hf
    rw [hcmd, generateExplicit, hread]
    simp only
    rw [hu]
    simp only [Bool.false_eq_true, if_false]
    rw [hf]
    simp
  have hok : IsPortUsed u p = false → free p = true →
      generateCommand parse free st [name, portStr] =
        (Except.ok p,
          [Effect.statUsedPortsFile, Effect.statServiceDir name,
            Effect.readUsedPortsFile, Effect.probe p,
            Effect.readUsedPortsFile,
            Effect.writeUsedPortsFile (u ++ [PortInfo.mk p name]),
            Effect.scaffold name p]) := by
    intro hu hf
    rw [hcmd, generateExplicit, hread]
    simp only
    rw [hu]
    simp only [Bool.false_eq_true, if_false]
    rw [hf]
    simp only [if_true]
    have hrp : recordPort u p name = (u ++ [PortInfo.mk p name], true) := by
      rw [recordPort, hu]
      simp
    rw [hrp]
    simp
  refine ⟨hconf, hunav, hok, ?_⟩
  intro q hq
  cases hu : IsPortUsed u p with
  | true =>
    rw [hconf hu] at hq
    simp at hq
  | false =>
    cases hf : free p with
    | true =>
      rw [hok hu hf] at hq
      simp at hq
      omega
    | false =>
      rw [hunav hu hf] at hq
      simp at hq
      omega

theorem explicit_port_request_spec_witness :
    generateCommand (fun _ => some [PortInfo.mk 8080 "svc-a"]) (fun _ => true)
        (GoresState.mk StatResult.notExist (FileRead.content "reg")
          FileRead.missing) ["svc-b", "8080"] =
      (Except.error GErr.portConflict,
        [Effect.statUsedPortsFile, Effect.statServiceDir "svc-b",
          Effect.readUsedPortsFile]) := by
  have h := explicit_port_request_spec (fun _ => some [PortInfo.mk 8080 "svc-a"])
    (fun _ => true)
    (GoresState.mk StatResult.notExist (FileRead.content "reg")
      FileRead.missing) "svc-b" "8080" 8080 [PortInfo.mk 8080 "svc-a"]
    (by decide) (by omega) (by omega) (by decide) rfl rfl
  exact h.1 (by decide)

/-- C5: a generation request whose service name already has an existing
destination root fails with `ServiceAlreadyExists`; the run performs only
the two stats — no port is allocated and the on-disk port registry is
neither read nor written. -/
theorem generate_existing_service_rejected (parse : String → Option UsedPorts)
    (free : Int → Bool) (st : GoresState) (name : String)
    (rest : List String)
    (hargs : generateArgsCheck (name :: rest) = Except.ok ())
    (hinit : st.usedPortsFile ≠ FileRead.missing)
    (hsvc : isNotExistStat st.serviceStat = false) :
    generateCommand parse free st (name :: rest) =
      (Except.error GErr.serviceAlreadyExists,
        [Effect.statUsedPortsFile, Effect.statServiceDir name]) :=
  generateCommand_service_exists parse free st name rest hargs hinit hsvc

theorem generate_existing_service_rejected_witness :
    generateCommand (fun _ => none) (fun _ => true)
        (GoresState.mk StatResult.statOk (FileRead.content "reg")
          FileRead.missing) ["svc-a"] =
      (Except.error GErr.serviceAlreadyExists,
        [Effect.statUsedPortsFile, Effect.statServiceDir "svc-a"]) :=
  generate_existing_service_rejected (fun _ => none) (fun _ => true)
    (GoresState.mk StatResult.statOk (FileRead.content "reg")
      FileRead.missing) "svc-a" [] rfl (by decide) rfl

/-- C8: an explicit-port request whose port parses to a value below 1024 or
above 65535 is rejected with `InvalidPort` by the argument validator, before
`RunE` runs: the effect trace is empty, so neither the Port Registry nor
the filesystem is read or written. -/
theorem out_of_range_port_rejected_before_io
    (parse : String → Option UsedPorts) (free : Int → Bool)
    (st : GoresState) (name portStr : String) (rest : List String) (p : Int)
    (hp : goAtoi portStr = some p) (hrange : p < 1024 ∨ p > 65535) :
    generateCommand parse free st (name :: portStr :: rest) =
      (Except.error GErr.invalidPort, []) := by
  have hac : generateArgsCheck (name :: portStr :: rest) =
      Except.error GErr.invalidPort := by
    rw [generateArgsCheck]
    rw [length_beq_zero_false_of_goAtoi_some portStr p hp]
    simp only [Bool.false_eq_true, if_false]
    rw [hp]
    simp only
    have hc : (decide (p < 1024) || decide (p > 65535)) = true := by
      rcases hrange with h | h <;> simp [h]
    rw [hc]
    simp
  rw [generateCommand, hac]

theorem out_of_range_port_rejected_before_io_witness :
    generateCommand (fun _ => none) (fun _ => true)
        (GoresState.mk StatResult.notExist FileRead.missing FileRead.missing)
        ["svc-a", "80"] =
      (Except.error GErr.invalidPort, []) :=
  out_of_range_port_rejected_before_io (fun _ => none) (fun _ => true)
    (GoresState.mk StatResult.notExist FileRead.missing FileRead.missing)
    "svc-a" "80" [] 80 (by decide) (by omega)

/-- C10: the service-existence check answers true whenever the stat of the
destination yields any error other than not-exist (and when the path
exists), and false only on a not-exist error; consequently a generation
request whose destination is merely unstatable is rejected as
`ServiceAlreadyExists` even though no service directory exists. -/
theorem service_exists_under_stat_error (parse : String → Option UsedPorts)
    (free : Int → Bool) (st : GoresState) (name : String)
    (rest : List String)
    (hargs : generateArgsCheck (name :: rest) = Except.ok ())
    (hinit : st.usedPortsFile ≠ FileRead.missing)
    (hstat : st.serviceStat = StatResult.otherError) :
    ServiceExists StatResult.otherError = true ∧
      ServiceExists StatResult.statOk = true ∧
      ServiceExists StatResult.notExist = false ∧
      generateCommand parse free st (name :: rest) =
        (Except.error GErr.serviceAlreadyExists,
          [Effect.statUsedPortsFile, Effect.statServiceDir name]) := by
  refine ⟨rfl, rfl, rfl, ?_⟩
  apply generateCommand_service_exists parse free st name rest hargs hinit
  rw [hstat]
  rfl

theorem service_exists_under_stat_error_witness :
    ServiceExists StatResult.otherError = true ∧
      ServiceExists StatResult.statOk = true ∧
      ServiceExists StatResult.notExist = false ∧
      generateCommand (fun _ => none) (fun _ => true)
          (GoresState.mk StatResult.otherError (FileRead.content "reg")
            FileRead.missing) ["svc-a"] =
        (Except.error GErr.serviceAlreadyExists,
          [Effect.statUsedPortsFile, Effect.statServiceDir "svc-a"]) :=
  service_exists_under_stat_error (fun _ => none) (fun _ => true)
    (GoresState.mk StatResult.otherError (FileRead.content "reg")
      FileRead.missing) "svc-a" [] rfl (by decide) rfl

/-! ## Helper lemmas for the shared-package initializer -/

theorem contains_ensurePath_self (p : String) (fs : List String) :
    (ensurePath p fs).contains p = true := by
  rw [ensurePath]
  by_cases h : fs.contains p
  · rw [if_pos h]
    exact h
  · rw [if_neg h]
    simp

theorem ensurePath_subset (p : String) (fs : List String) (q : String)
    (h : fs.contains q = true) : (ensurePath p fs).contains q = true := by
  rw [ensurePath]
  by_cases hc : fs.contains p
  · rw [if_pos hc]
    exact h
  · rw [if_neg hc]
    simp at h ⊢
    exact Or.inr h

theorem ensurePath_of_contains (p : String) (fs : List String)
    (h : fs.contains p = true) : ensurePath p fs = fs := by
  rw [ensurePath, if_pos h]

theorem ensureRenderedFile_contains (tstore render : String → Option String)
    (key dest : String) (fs fs2 : List String)
    (h : ensureRenderedFile tstore render key dest fs = Except.ok fs2) :
    fs2.contains dest = true := by
  rw [ensureRenderedFile] at h
  by_cases hc : fs.contains dest
  · rw [if_pos hc] at h
    cases h
    exact hc
  · rw [if_neg hc] at h
    cases ht : tstore key with
    | none => rw [ht] at h; exact Except.noConfusion h
    | some c =>
      rw [ht] at h
      simp only at h
      cases hr : render c with
      | none => rw [hr] at h; exact Except.noConfusion h
      | some o =>
        rw [hr] at h
        simp only [Except.ok.injEq] at h
        rw [← h]
        simp

theorem ensureRenderedFile_subset (tstore render : String → Option String)
    (key dest : String) (fs fs2 : List String)
    (h : ensureRenderedFile tstore render key dest fs = Except.ok fs2)
    (q : String) (hq : fs.contains q = true) : fs2.contains q = true := by
  rw [ensureRenderedFile] at h
  by_cases hc : fs.contains dest
  · rw [if_pos hc] at h
    cases h
    exact hq
  · rw [if_neg hc] at h
    cases ht : tstore key with
    | none => rw [ht] at h; exact Except.noConfusion h
    | some c =>
      rw [ht] at h
      simp only at h
      cases hr : render c with
      | none => rw [hr] at h; exact Except.noConfusion h
      | some o =>
        rw [hr] at h
        simp only [Except.ok.injEq] at h
        rw [← h]
        simp at hq ⊢
        exact Or.inr hq

theorem ensureRenderedFile_of_contains (tstore render : String → Option String)
    (key dest : String) (fs : List String) (h : fs.contains dest = true) :
    ensureRenderedFile tstore render key dest fs = Except.ok fs := by
  rw [ensureRenderedFile, if_pos h]

/-- C9: the shared-package initializer is idempotent: every artifact's
existence is checked before creation, so after a successful run a second run
over the resulting filesystem creates nothing, changes no file (the
resulting path set is returned unchanged), and returns no error. -/
theorem shared_pkg_idempotent
    (tstore render : String → Option String) (fs fs2 : List String)
    (h : createSharedPkg tstore render fs = Except.ok fs2) :
    createSharedPkg tstore render fs2 = Except.ok fs2 := by
  simp only [createSharedPkg] at h
  cases hdb : ensureRenderedFile tstore render
      "templates/database_connection.tmpl"
      "pkg/database/postgres/connection.go"
      (ensurePath "pkg/database/postgres" (ensurePath "pkg/database"
        (ensurePath "pkg/entities" (ensurePath "pkg/go.sum"
          (ensurePath "pkg/go.mod" (ensurePath "pkg" fs)))))) with
  | error e =>
    rw [hdb] at h
    exact Except.noConfusion h
  | ok fs7 =>
    rw [hdb] at h
    simp only at h
    have pushF : ∀ q, fs7.contains q = true → fs2.contains q = true :=
      fun q hq => ensureRenderedFile_subset tstore render
        "templates/middleware.tmpl" "pkg/http/middleware/middleware.go"
        (ensurePath "pkg/http/middleware" (ensurePath "pkg/http" fs7)) fs2 h q
        (ensurePath_subset _ _ q (ensurePath_subset _ _ q hq))
    have s7 := ensureRenderedFile_subset tstore render
      "templates/database_connection.tmpl"
      "pkg/database/postgres/connection.go" _ fs7 hdb
    have push6 : ∀ q,
        (ensurePath "pkg/database/postgres" (ensurePath "pkg/database"
          (ensurePath "pkg/entities" (ensurePath "pkg/go.sum"
            (ensurePath "pkg/go.mod" (ensurePath "pkg" fs)))))).contains q =
          true →
        fs2.contains q = true :=
      fun q hq => pushF q (s7 q hq)
    have hpkg : fs2.contains "pkg" = true :=
      push6 _ (ensurePath_subset _ _ _ (ensurePath_subset _ _ _
        (ensurePath_subset _ _ _ (ensurePath_subset _ _ _
          (ensurePath_subset _ _ _ (contains_ensurePath_self _ _))))))
    have hgomod : fs2.contains "pkg/go.mod" = true :=
      push6 _ (ensurePath_subset _ _ _ (ensurePath_subset _ _ _
        (ensurePath_subset _ _ _ (ensurePath_subset _ _ _
          (contains_ensurePath_self _ _)))))
    have hgosum : fs2.contains "pkg/go.sum" = true :=
      push6 _ (ensurePath_subset _ _ _ (ensurePath_subset _ _ _
        (ensurePath_subset _ _ _ (contains_ensurePath_self _ _))))
    have hent : fs2.contains "pkg/entities" = true :=
      push6 _ (ensurePath_subset _ _ _ (ensurePath_subset _ _ _
        (contains_ensurePath_self _ _)))
    have hdbd : fs2.contains "pkg/database" = true :=
      push6 _ (ensurePath_subset _ _ _ (contains_ensurePath_self _ _))
    have hpg : fs2.contains "pkg/database/postgres" = true :=
      push6 _ (contains_ensurePath_self _ _)
    have hconn : fs2.contains "pkg/database/postgres/connection.go" = true :=
      pushF _ (ensureRenderedFile_contains tstore render
        "templates/database_connection.tmpl"
        "pkg/database/postgres/connection.go" _ fs7 hdb)
    have hhttp : fs2.contains "pkg/http" = true :=
      ensureRenderedFile_subset tstore render "templates/middleware.tmpl"
        "pkg/http/middleware/middleware.go" _ fs2 h _
        (ensurePath_subset _ _ _ (contains_ensurePath_self _ _))
    have hmw : fs2.contains "pkg/http/middleware" = true :=
      ensureRenderedFile_subset tstore render "templates/middleware.tmpl"
        "pkg/http/middleware/middleware.go" _ fs2 h _
        (contains_ensurePath_self _ _)
    have hmwgo : fs2.contains "pkg/http/middleware/middleware.go" = true :=
      ensureRenderedFile_contains tstore render "templates/middleware.tmpl"
        "pkg/http/middleware/middleware.go" _ fs2 h
    simp only [createSharedPkg]
    rw [ensurePath_of_contains "pkg" fs2 hpkg]
    rw [ensurePath_of_contains "pkg/go.mod" fs2 hgomod]
    rw [ensurePath_of_contains "pkg/go.sum" fs2 hgosum]
    rw [ensurePath_of_contains "pkg/entities" fs2 hent]
    rw [ensurePath_of_contains "pkg/database" fs2 hdbd]
    rw [ensurePath_of_contains "pkg/database/postgres" fs2 hpg]
    rw [ensureRenderedFile_of_contains tstore render
      "templates/database_connection.tmpl"
      "pkg/database/postgres/connection.go" fs2 hconn]
    simp only
    rw [ensurePath_of_contains "pkg/http" fs2 hhttp]
    rw [ensurePath_of_contains "pkg/http/middleware" fs2 hmw]
    exact ensureRenderedFile_of_contains tstore render
      "templates/middleware.tmpl" "pkg/http/middleware/middleware.go" fs2
      hmwgo

theorem shared_pkg_idempotent_witness :
    createSharedPkg (fun _ => some "T") (fun _ => some "R")
        ["pkg/http/middleware/middleware.go", "pkg/http/middleware",
          "pkg/http", "pkg/database/postgres/connection.go",
          "pkg/database/postgres", "pkg/database", "pkg/entities",
          "pkg/go.sum", "pkg/go.mod", "pkg"] =
      Except.ok
        ["pkg/http/middleware/middleware.go", "pkg/http/middleware",
          "pkg/http", "pkg/database/postgres/connection.go",
          "pkg/database/postgres", "pkg/database", "pkg/entities",
          "pkg/go.sum", "pkg/go.mod", "pkg"] :=
  shared_pkg_idempotent (fun _ => some "T") (fun _ => some "R")
    [] _ rfl

end Gores

